import Mathlib

/-!
Shallow embedding of the meeting-stack browser extension
(`src/background.ts`, which bundles the background script and the
`Meetings` component, plus the `NotesModal` component).

JavaScript conventions used throughout:
* `undefined` is modelled by `Option.none`; an in-memory meetings array is a
  `List (Option Meeting)` so that out-of-range indexing (which yields
  `undefined` in JavaScript) is representable.
* `chrome.storage.local` is a flat key-value map `String → Option StorageValue`.
* `Array.prototype.sort` with comparator `(a, b) => a.order - b.order` is a
  stable ascending sort by `order` (ES2019 guarantees stability); it is
  modelled with `List.insertionSort`, which is stable for `≤`.
-/

/-- The response-status string union from the `Meeting` interface. -/
inductive ResponseStatus where
  | accepted
  | declined
  | needsAction
  | tentative
deriving DecidableEq, Repr

/-- The `organizer` field of a meeting: email plus the `self` flag. -/
structure Organizer where
  email : String
  self : Bool
deriving DecidableEq, Repr

/-- The `Meeting` interface of the source (`order` is always set by the fetch
pipeline, so it is not optional here; `notes`/`seriesNotes` are optional). -/
structure Meeting where
  id : String
  summary : String
  startTime : String
  endTime : String
  responseStatus : ResponseStatus
  organizer : Organizer
  order : Nat
  recurringEventId : Option String
  notes : Option String
  seriesNotes : Option String
deriving DecidableEq, Repr

/-- An attendee entry of a remote calendar event. -/
structure Attendee where
  self : Bool
  responseStatus : Option ResponseStatus
deriving DecidableEq, Repr

/-- A raw event item from `data.items` of the calendar API response
(`start.dateTime`/`end.dateTime` are flattened into single fields). -/
structure RemoteItem where
  id : String
  summary : String
  startDateTime : String
  endDateTime : String
  eventType : String
  transparency : Option String
  attendees : Option (List Attendee)
  organizer : Organizer
  recurringEventId : Option String
deriving DecidableEq, Repr

/-- A JavaScript `Date`, represented by its `toISOString()` serialization,
which is the only way the code observes a bucket start date. -/
structure Date where
  toISOString : String
deriving DecidableEq, Repr

/-- A value stored in `chrome.storage.local`: either a meeting-order rank map
(a JavaScript object, kept as its entry list) or a note string. -/
inductive StorageValue where
  | orderMap : List (String × Nat) → StorageValue
  | note : String → StorageValue
deriving DecidableEq, Repr

/-- `chrome.storage.local` as a flat key-value space. -/
def LocalStorage : Type := String → Option StorageValue

/-- `chrome.storage.local.set` of a single key. -/
def setStorage (st : LocalStorage) (key : String) (v : StorageValue) : LocalStorage :=
  fun k => if k = key then some v else st k

/-- Storage with no keys set. -/
def emptyStorage : LocalStorage := fun _ => none

/-- JavaScript truthiness of an optional string (`undefined` and `""` are
falsy). -/
def jsTruthyStr : Option String → Bool
  | some s => s != ""
  | none => false

/-- `getStorageKey` of the source:
`` `meetingOrder_${start.toISOString().split('T')[0]}` ``. -/
def getStorageKey (start : Date) : String :=
  "meetingOrder_" ++ (start.toISOString.splitOn "T").headD ""

/-- Modelled from the spec: the spec's `isoDateOnly(bucketStart)`, the ISO
date-only form of a bucket start date (everything before the `T` of the
ISO serialization). Used only to state claim C3 in the spec's vocabulary. -/
def isoDateOnly (start : Date) : String :=
  (start.toISOString.splitOn "T").headD ""

/-- Lookup in a rank map built by `Object.fromEntries`: with duplicate keys,
the entry appearing last wins, exactly like repeated object assignment. -/
def objLookup (entries : List (String × Nat)) (key : String) : Option Nat :=
  entries.foldl (fun acc e => if e.1 = key then some e.2 else acc) none

/-- The entry list `meetings.map((meeting, index) => [meeting.id, index])` of
`storeMeetingOrder`. Reading `.id` of a JavaScript `undefined` element throws,
so the result is `none` when any element is `undefined`. -/
def orderEntries (meetings : List (Option Meeting)) : Option (List (String × Nat)) :=
  (meetings.mapM (fun m => m)).map (fun ms => ms.enum.map (fun p => (p.2.id, p.1)))

/-- `storeMeetingOrder` of the source: write the dense rank map for the bucket
key of `start`. If building the entries throws (an `undefined` element), the
write never happens. -/
def storeMeetingOrder (st : LocalStorage) (meetings : List (Option Meeting)) (start : Date) :
    LocalStorage :=
  match orderEntries meetings with
  | some m => setStorage st (getStorageKey start) (StorageValue.orderMap m)
  | none => st

/-- `getMeetingOrder` of the source: `result[getStorageKey(start)] || {}`. -/
def getMeetingOrder (st : LocalStorage) (start : Date) : List (String × Nat) :=
  match st (getStorageKey start) with
  | some (StorageValue.orderMap m) => m
  | _ => []

/-- `getNoteStorageKey` of the source: `` `meetingNote_${meetingId}` ``. -/
def getNoteStorageKey (meetingId : String) : String :=
  "meetingNote_" ++ meetingId

/-- `getSeriesNoteStorageKey` of the source:
`` `seriesNote_${recurringEventId}` ``. -/
def getSeriesNoteStorageKey (recurringEventId : String) : String :=
  "seriesNote_" ++ recurringEventId

/-- `storeNote` of the source. -/
def storeNote (st : LocalStorage) (meetingId : String) (note : String) : LocalStorage :=
  setStorage st (getNoteStorageKey meetingId) (StorageValue.note note)

/-- `storeSeriesNote` of the source. -/
def storeSeriesNote (st : LocalStorage) (recurringEventId : String) (note : String) :
    LocalStorage :=
  setStorage st (getSeriesNoteStorageKey recurringEventId) (StorageValue.note note)

/-- Read a note string back from storage (the `result[key]` reads of the fetch
pipeline; a non-note value at the key is not a note). -/
def getStoredNote (st : LocalStorage) (key : String) : Option String :=
  match st key with
  | some (StorageValue.note n) => some n
  | _ => none

/-- `Number.MAX_SAFE_INTEGER`, the sentinel rank of never-reordered items. -/
def maxSafeInteger : Nat := 2 ^ 53 - 1

/-- `filterMeetings` of the source: keep default events, keep transparent
(free) events only with `showFree`, keep events with at most one attendee only
with `showSingleAttendee`. -/
def filterMeetings (showFree showSingleAttendee : Bool) (items : List RemoteItem) :
    List RemoteItem :=
  ((items.filter (fun item => item.eventType == "default")).filter
      (fun item => item.transparency != some "transparent" || showFree)).filter
    (fun item => showSingleAttendee ||
      (match item.attendees with
       | some attendeeList => decide (1 < attendeeList.length)
       | none => false))

/-- The per-item body of the `meetingsWithNotes` construction inside
`fetchMeetings`/`fetchMeetingsQuietly`: build a `Meeting` from a raw item,
resolving the viewer's response status, attaching stored notes and the stored
rank (defaulting to the sentinel via `??`). -/
def toMeeting (st : LocalStorage) (storedOrder : List (String × Nat)) (item : RemoteItem) :
    Meeting :=
  { id := item.id
    summary := item.summary
    startTime := item.startDateTime
    endTime := item.endDateTime
    responseStatus :=
      (((item.attendees.getD []).find? (fun a => a.self)).bind
        (fun a => a.responseStatus)).getD ResponseStatus.needsAction
    organizer := item.organizer
    order := (objLookup storedOrder item.id).getD maxSafeInteger
    recurringEventId := item.recurringEventId
    notes := getStoredNote st (getNoteStorageKey item.id)
    seriesNotes :=
      if jsTruthyStr item.recurringEventId then
        getStoredNote st (getSeriesNoteStorageKey (item.recurringEventId.getD ""))
      else none }

/-- The three visibility toggles of the component state. -/
structure Filters where
  showSingleAttendee : Bool
  showDeclined : Bool
  showFree : Bool
deriving DecidableEq, Repr

/-- The `meetingsWithNotes` list of the fetch pipeline. -/
def meetingsWithNotes (st : LocalStorage) (storedOrder : List (String × Nat))
    (filters : Filters) (items : List RemoteItem) : List Meeting :=
  (filterMeetings filters.showFree filters.showSingleAttendee items).map (toMeeting st storedOrder)

/-- The comparator `(a, b) => a.order - b.order` as the ordering relation it
induces (ascending by `order`). -/
def byOrder (a b : Meeting) : Prop := a.order ≤ b.order

instance : DecidableRel byOrder := fun a b => Nat.decLe a.order b.order

/-- The first half of the `filteredMeetings` construction of the fetch
pipeline: drop declined meetings unless `showDeclined` (the `.filter` step,
before the `.sort`). -/
def declinedFiltered (st : LocalStorage) (storedOrder : List (String × Nat))
    (filters : Filters) (items : List RemoteItem) : List Meeting :=
  (meetingsWithNotes st storedOrder filters items).filter
    (fun m => filters.showDeclined || !(m.responseStatus == ResponseStatus.declined))

/-- The `filteredMeetings` value of the fetch pipeline:
`.sort((a, b) => a.order - b.order)` applied after the declined filter
(stable ascending sort by rank). -/
def filteredMeetings (st : LocalStorage) (storedOrder : List (String × Nat))
    (filters : Filters) (items : List RemoteItem) : List Meeting :=
  List.insertionSort byOrder (declinedFiltered st storedOrder filters items)

/-- The component state touched by the fetch/update flows: the `meetings`,
`loading` and `updating` `useState` cells, plus a count of `console.error`
calls (the only error channel the component has). -/
structure ViewState where
  meetings : List (Option Meeting)
  loading : Bool
  updating : Bool
  consoleErrors : Nat
deriving DecidableEq, Repr

/-- The external world seen by one fetch: the auth token handed to the
`chrome.identity.getAuthToken` callback, and the parsed response items
(`none` models the network request throwing, which on these paths is an
unhandled rejection inside the callback: execution stops silently). -/
structure FetchEnv where
  token : Option String
  response : Option (List RemoteItem)
deriving DecidableEq, Repr

/-- `fetchMeetings` of the source. `setLoading(true)` runs first; the token
callback bails out silently when no token is available (leaving `loading`
set); otherwise the projection replaces `meetings` and `loading` clears. -/
def fetchMeetings (env : FetchEnv) (st : LocalStorage) (filters : Filters) (start : Date)
    (vs : ViewState) : ViewState :=
  let vs1 := { vs with loading := true }
  match env.token with
  | none => vs1
  | some _ =>
    match env.response with
    | none => vs1
    | some items =>
      { vs1 with
          meetings := (filteredMeetings st (getMeetingOrder st start) filters items).map some
          loading := false }

/-- `fetchMeetingsQuietly` of the source: resolves `[]` without a token,
resolves the projection on success, and never resolves (`none`) when the
network request throws. -/
def fetchMeetingsQuietly (env : FetchEnv) (st : LocalStorage) (filters : Filters)
    (start : Date) : Option (List Meeting) :=
  match env.token with
  | none => some []
  | some _ =>
    match env.response with
    | none => none
    | some items => some (filteredMeetings st (getMeetingOrder st start) filters items)

/-- The external world seen by `updateMeetingResponse`: token, whether the GET
of the event throws, whether the PATCH throws, and the environment of the
subsequent quiet refetch. -/
structure UpdateEnv where
  token : Option String
  getEventThrows : Bool
  patchThrows : Bool
  refetch : FetchEnv
deriving DecidableEq, Repr

/-- `updateMeetingResponse` of the source. The optimistic `setMeetings` runs
inside `try`; the `finally` clears `updating` synchronously, before the async
token callback ever runs. Inside the callback, a thrown GET or PATCH is an
unhandled rejection (the surrounding `try`/`catch` has already exited), so no
further state change happens; when the PATCH resolves, the quiet refetch's
result unconditionally replaces `meetings`. The GET result only shapes the
PATCH body and never reaches component state, so it carries no state here. -/
def updateMeetingResponse (env : UpdateEnv) (st : LocalStorage) (filters : Filters)
    (start : Date) (meetingId : String) (response : ResponseStatus) (vs : ViewState) :
    ViewState :=
  let vs1 := { vs with updating := true }
  let vs2 := { vs1 with
      meetings := vs1.meetings.map (Option.map (fun m : Meeting =>
        if m.id = meetingId then { m with responseStatus := response } else m)) }
  let vs3 := { vs2 with updating := false }
  match env.token with
  | none => vs3
  | some _ =>
    if env.getEventThrows then vs3
    else if env.patchThrows then vs3
    else
      match fetchMeetingsQuietly env.refetch st filters start with
      | none => vs3
      | some updated => { vs3 with meetings := updated.map some }

/-- The response status the list shows for a given meeting id (first matching
defined row). -/
def statusOf (meetings : List (Option Meeting)) (meetingId : String) : Option ResponseStatus :=
  ((meetings.filterMap (fun m => m)).find? (fun m => m.id == meetingId)).map
    (fun m => m.responseStatus)

/-- JavaScript array indexing `l[i]` on a meetings array: the element when in
range, `undefined` otherwise. -/
def jsIdx (l : List (Option Meeting)) (i : Nat) : Option Meeting :=
  (l.get? i).getD none

/-- The `prevMeetings.filter((_, i) => i !== index)` idiom of
`moveToTop`/`moveToBottom`: keep every position except `index`. -/
def filterOutIndex (l : List (Option Meeting)) (index : Nat) : List (Option Meeting) :=
  (l.enum.filter (fun p => p.1 != index)).map Prod.snd

/-- `moveRow` of the source, via immutability-helper
`$splice: [[dragIndex, 1], [hoverIndex, 0, prevMeetings[dragIndex]]]`:
first remove one element at `dragIndex`, then insert the (pre-splice) element
`prevMeetings[dragIndex]` at `hoverIndex`. -/
def moveRow (prevMeetings : List (Option Meeting)) (dragIndex hoverIndex : Nat) :
    List (Option Meeting) :=
  let removed := prevMeetings.take dragIndex ++ prevMeetings.drop (dragIndex + 1)
  removed.take hoverIndex ++ jsIdx prevMeetings dragIndex :: removed.drop hoverIndex

/-- `moveToTop` of the source:
`[prevMeetings[index], ...prevMeetings.filter((_, i) => i !== index)]`. -/
def moveToTop (prevMeetings : List (Option Meeting)) (index : Nat) : List (Option Meeting) :=
  jsIdx prevMeetings index :: filterOutIndex prevMeetings index

/-- `moveToBottom` of the source:
`[...prevMeetings.filter((_, i) => i !== index), prevMeetings[index]]`. -/
def moveToBottom (prevMeetings : List (Option Meeting)) (index : Nat) : List (Option Meeting) :=
  filterOutIndex prevMeetings index ++ [jsIdx prevMeetings index]

/-- `handleNoteSave` of the source, restricted to the state it mutates
(storage and the meetings list; closing the modal is presentation state).
`selectedMeeting` is the captured component-state value. -/
def handleNoteSave (selectedMeeting : Option Meeting) (note : String) (isSeriesNote : Bool)
    (st : LocalStorage) (meetings : List (Option Meeting)) :
    LocalStorage × List (Option Meeting) :=
  match selectedMeeting with
  | none => (st, meetings)
  | some sel =>
    if isSeriesNote && jsTruthyStr sel.recurringEventId then
      (storeSeriesNote st (sel.recurringEventId.getD "") note,
       meetings.map (Option.map (fun m : Meeting =>
         if m.recurringEventId = sel.recurringEventId then
           { m with seriesNotes := some note }
         else m)))
    else
      (storeNote st sel.id note,
       meetings.map (Option.map (fun m : Meeting =>
         if m.id = sel.id then { m with notes := some note } else m)))

/-- `handleSave` of `NotesModal`: always save the item note, then save the
series note when the meeting belongs to a recurring series. Both calls see
the same captured `selectedMeeting` (= `meeting`). -/
def handleSave (meeting : Meeting) (noteDraft seriesNoteDraft : String)
    (st : LocalStorage) (meetings : List (Option Meeting)) :
    LocalStorage × List (Option Meeting) :=
  let r1 := handleNoteSave (some meeting) noteDraft false st meetings
  if jsTruthyStr meeting.recurringEventId then
    handleNoteSave (some meeting) seriesNoteDraft true r1.1 r1.2
  else r1

/-- Rendering of a JavaScript number known to be a rational: exact for
integer-valued numbers (the only case any theorem below evaluates); the
fallback spelling for non-integers is a placeholder and is never relied on. -/
def jsNumToString (q : ℚ) : String :=
  if q.den = 1 then toString q.num else toString q.num ++ "/" ++ toString q.den

/-- `formatDuration` of the source, on the epoch-millisecond values of
`new Date(startTime).getTime()` / `new Date(endTime).getTime()`:
`durationMinutes = (end - start) / 60000` (exact rational), hours branch uses
`Math.floor`. -/
def formatDuration (startTimeMs endTimeMs : Int) : String :=
  let durationMinutes : ℚ := ((endTimeMs : ℚ) - (startTimeMs : ℚ)) / (1000 * 60)
  if 60 ≤ durationMinutes then
    toString ⌊durationMinutes / 60⌋ ++ "h"
  else
    jsNumToString durationMinutes ++ "m"

/-- A concrete meeting fixture with the given id. -/
def mkMeeting (mid : String) : Meeting :=
  { id := mid
    summary := "meeting " ++ mid
    startTime := "2025-01-06T10:00:00Z"
    endTime := "2025-01-06T10:30:00Z"
    responseStatus := ResponseStatus.accepted
    organizer := { email := "organizer@example.com", self := false }
    order := 0
    recurringEventId := none
    notes := none
    seriesNotes := none }

/-- A concrete remote-item fixture with the given id: a default two-attendee
event whose viewer accepted. -/
def mkRemoteItem (rid : String) : RemoteItem :=
  { id := rid
    summary := "meeting " ++ rid
    startDateTime := "2025-01-06T10:00:00Z"
    endDateTime := "2025-01-06T10:30:00Z"
    eventType := "default"
    transparency := none
    attendees := some [{ self := true, responseStatus := some ResponseStatus.accepted },
                       { self := false, responseStatus := some ResponseStatus.accepted }]
    organizer := { email := "organizer@example.com", self := false }
    recurringEventId := none }

/-- A concrete bucket start date (a Monday). -/
def mondayDate : Date := { toISOString := "2025-01-06T00:00:00.000Z" }

/-- Filters as the component initializes them (all toggles off). -/
def defaultFilters : Filters :=
  { showSingleAttendee := false, showDeclined := false, showFree := false }

/-- View state before any fetch resolves: empty list, nothing in flight. -/
def initialViewState : ViewState :=
  { meetings := [], loading := false, updating := false, consoleErrors := 0 }

/-- A meetings list holding the single accepted meeting `A`. -/
def initialMeetingsA : List (Option Meeting) := [some (mkMeeting "A")]

/-- An update environment whose PATCH request throws at the network level
(the quiet refetch therefore never runs). -/
def updateFailEnv : UpdateEnv :=
  { token := some "tok"
    getEventThrows := false
    patchThrows := true
    refetch := { token := some "tok", response := none } }

/-- An update environment whose PATCH resolves (the server may still have
rejected the change) and whose quiet refetch returns the single remote item
`A` unchanged. -/
def updateRejectedEnv : UpdateEnv :=
  { token := some "tok"
    getEventThrows := false
    patchThrows := false
    refetch := { token := some "tok", response := some [mkRemoteItem "A"] } }

/-- The stored rank map of the C4 scenario: `A` at rank 0, `B` at rank 1,
`C` and the newly arrived `D` unranked. -/
def scenarioOrder : List (String × Nat) := [("A", 0), ("B", 1)]

/-- The meeting `A` as an occurrence of the recurring series `S1`. -/
def recMeetingA : Meeting := { mkMeeting "A" with recurringEventId := some "S1" }

/-- The meeting `B` as another occurrence of the recurring series `S1`. -/
def recMeetingB : Meeting := { mkMeeting "B" with recurringEventId := some "S1" }

/-! Helper lemmas about the embedded definitions. -/

theorem seriesKey_ne_noteKey (a b : String) :
    getSeriesNoteStorageKey a ≠ getNoteStorageKey b := by
  intro h
  have h' : ("seriesNote_" ++ a).data = ("meetingNote_" ++ b).data := by
    simpa [getSeriesNoteStorageKey, getNoteStorageKey] using congrArg String.data h
  rw [String.data_append, String.data_append] at h'
  have hs : ("seriesNote_" : String).data = ['s', 'e', 'r', 'i', 'e', 's', 'N', 'o', 't', 'e', '_'] := rfl
  have hm : ("meetingNote_" : String).data = ['m', 'e', 'e', 't', 'i', 'n', 'g', 'N', 'o', 't', 'e', '_'] := rfl
  rw [hs, hm] at h'
  simp at h'

theorem jsIdx_of_lt {l : List (Option Meeting)} {i : Nat} (h : i < l.length) :
    jsIdx l i = l.get ⟨i, h⟩ := by
  simp [jsIdx, List.getElem?_eq_getElem h, List.get_eq_getElem]

theorem jsIdx_of_le {l : List (Option Meeting)} {i : Nat} (h : l.length ≤ i) :
    jsIdx l i = none := by
  simp [jsIdx, List.getElem?_eq_none h]

theorem filterOutIndex_enumFrom (i : Nat) :
    ∀ (l : List (Option Meeting)) (n : Nat),
      ((l.enumFrom n).filter (fun p => p.1 != i)).map Prod.snd =
        if i < n then l else l.eraseIdx (i - n) := by
  intro l
  induction l with
  | nil => intro n; simp
  | cons x xs ih =>
    intro n
    rw [List.enumFrom_cons]
    by_cases h : n = i
    · subst h
      simp only [List.filter_cons, bne_self_eq_false, Bool.false_eq_true, if_false, ih (n + 1)]
      have h1 : n < n + 1 := Nat.lt_succ_self n
      have h2 : ¬ n < n := Nat.lt_irrefl n
      simp [h1, h2, Nat.sub_self]
    · have hne : (n != i) = true := bne_iff_ne.2 h
      simp only [List.filter_cons, hne, if_true, List.map_cons, ih (n + 1)]
      rcases Nat.lt_or_ge i n with hlt | hge
      · have h1 : i < n + 1 := Nat.lt_succ_of_lt hlt
        simp [hlt, h1]
      · have hgt : n < i := Nat.lt_of_le_of_ne hge h
        have h1 : ¬ i < n + 1 := Nat.not_lt.2 hgt
        have h2 : ¬ i < n := Nat.not_lt.2 (Nat.le_of_lt hgt)
        have h3 : i - n = (i - (n + 1)) + 1 := by omega
        simp only [h1, if_false, h2, h3, List.eraseIdx_cons_succ]

theorem filterOutIndex_eq_eraseIdx (l : List (Option Meeting)) (i : Nat) :
    filterOutIndex l i = l.eraseIdx i := by
  have h := filterOutIndex_enumFrom i l 0
  simp only [Nat.not_lt_zero, if_false, Nat.sub_zero] at h
  simpa [filterOutIndex, List.enum] using h

theorem perm_get_cons_eraseIdx {α : Type} :
    ∀ (l : List α) (i : Nat) (h : i < l.length), (l.get ⟨i, h⟩ :: l.eraseIdx i).Perm l := by
  intro l
  induction l with
  | nil => intro i h; simp at h
  | cons x xs ih =>
    intro i h
    cases i with
    | zero => simp
    | succ j =>
      have hj : j < xs.length := by simpa using h
      have step : (xs.get ⟨j, hj⟩ :: x :: xs.eraseIdx j).Perm (x :: (xs.get ⟨j, hj⟩ :: xs.eraseIdx j)) :=
        List.Perm.swap x (xs.get ⟨j, hj⟩) (xs.eraseIdx j)
      exact step.trans ((ih j hj).cons x)

theorem perm_insert_take_drop {α : Type} (xs : List α) (n : Nat) (a : α) :
    (xs.take n ++ a :: xs.drop n).Perm (a :: xs) := by
  have h := @List.perm_middle _ a (xs.take n) (xs.drop n)
  simpa [List.take_append_drop] using h

theorem objLookup_foldl (k : String) :
    ∀ (es : List (String × Nat)) (init : Option Nat),
      es.foldl (fun acc e => if e.1 = k then some e.2 else acc) init =
        match objLookup es k with
        | some v => some v
        | none => init := by
  intro es
  induction es with
  | nil => intro init; simp [objLookup]
  | cons e es ih =>
    intro init
    show es.foldl _ (if e.1 = k then some e.2 else init) = _
    rw [ih]
    have hcons : objLookup (e :: es) k =
        match objLookup es k with
        | some v => some v
        | none => if e.1 = k then some e.2 else none := by
      show es.foldl _ (if e.1 = k then some e.2 else none) = _
      rw [ih]
    rw [hcons]
    cases objLookup es k <;> by_cases h : e.1 = k <;> simp [h]

theorem objLookup_mem {k : String} {r : Nat} :
    ∀ {es : List (String × Nat)}, objLookup es k = some r → (k, r) ∈ es := by
  intro es
  induction es with
  | nil => intro h; simp [objLookup] at h
  | cons e es ih =>
    intro h
    have h' : (match objLookup es k with
        | some v => some v
        | none => if e.1 = k then some e.2 else none) = some r := by
      rw [← objLookup_foldl k es (if e.1 = k then some e.2 else none)]
      exact h
    cases hes : objLookup es k with
    | some v =>
      rw [hes] at h'
      exact List.mem_cons_of_mem e (ih (hes.trans h'))
    | none =>
      rw [hes] at h'
      by_cases he : e.1 = k
      · rw [if_pos he] at h'
        have : e = (k, r) := by
          cases e with
          | mk e1 e2 => cases h'; cases he; rfl
        exact this ▸ List.mem_cons_self _ _
      · rw [if_neg he] at h'
        cases h'

theorem mapM_id_some_length :
    ∀ {ms : List (Option Meeting)} {l : List Meeting},
      ms.mapM (fun m => m) = some l → l.length = ms.length := by
  intro ms
  induction ms with
  | nil =>
    intro l h
    simp only [List.mapM_nil] at h
    cases h
    rfl
  | cons m ms ih =>
    intro l h
    simp only [List.mapM_cons] at h
    cases m with
    | none => simp at h
    | some x =>
      cases hms : ms.mapM (fun m => m) with
      | none => rw [hms] at h; simp at h
      | some xs =>
        rw [hms] at h
        simp at h
        cases h
        simp [ih hms]

theorem orderEntries_rank_lt {ms : List (Option Meeting)} {m : List (String × Nat)}
    {k : String} {r : Nat} (he : orderEntries ms = some m) (hl : objLookup m k = some r) :
    r < ms.length := by
  unfold orderEntries at he
  cases hm : ms.mapM (fun m => m) with
  | none => rw [hm] at he; cases he
  | some l =>
    rw [hm] at he
    simp only [Option.map_some'] at he
    cases he
    have hmem := objLookup_mem hl
    rcases List.mem_map.1 hmem with ⟨p, hp, hpe⟩
    have hfst : p.1 = r := congrArg Prod.snd hpe
    have hplt : p.1 < l.length := by
      have := List.mem_enum_iff_getElem?.1 hp
      exact (List.getElem?_eq_some.1 this).1
    rw [hfst] at hplt
    exact hplt.trans_le (le_of_eq (mapM_id_some_length hm))

theorem toString_int_ofNat (n : Nat) : toString ((n : Int)) = toString n := rfl

/-! Claim theorems. -/

/-- Claim C3, counterexample: the stored keys are not derived with the
prefixes the claim states; at the concrete Monday bucket date and ids
`"m1"`/`"s1"`, the order key and note key do not use `"order_"`/`"note_"`. -/
theorem storage_key_prefix_cex :
    ¬ (getStorageKey mondayDate = "order_" ++ isoDateOnly mondayDate ∧
       getNoteStorageKey "m1" = "note_" ++ "m1" ∧
       getSeriesNoteStorageKey "s1" = "seriesNote_" ++ "s1") := by
  decide

/-- Claim C3, amended: the keys are deterministically derived, with prefixes
`"meetingOrder_"` (followed by the ISO date-only form of the bucket start
date), `"meetingNote_"` (followed by the meeting id) and `"seriesNote_"`
(followed by the recurring-series id). -/
theorem storage_key_derivation (d : Date) (meetingId recurringEventId : String) :
    getStorageKey d = "meetingOrder_" ++ isoDateOnly d ∧
    getNoteStorageKey meetingId = "meetingNote_" ++ meetingId ∧
    getSeriesNoteStorageKey recurringEventId = "seriesNote_" ++ recurringEventId :=
  ⟨rfl, rfl, rfl⟩

/-- Claim C8, counterexample: with no auth credential, `fetchMeetings` is not
a no-op on the view state: at the initial view state (`loading = false`) it
changes the state, because `setLoading(true)` has already run and is never
cleared on the token-less path. -/
theorem fetch_no_token_not_noop_cex :
    fetchMeetings { token := none, response := none } emptyStorage defaultFilters mondayDate
        initialViewState ≠ initialViewState := by
  decide

/-- Claim C8, amended: with no auth credential, `fetchMeetings` leaves the
meetings list, the updating flag and the console untouched and surfaces no
error, but it does set the loading flag to true (and never clears it on this
path), so the prior view state is not entirely unchanged. -/
theorem fetch_no_token_state (resp : Option (List RemoteItem)) (st : LocalStorage)
    (filters : Filters) (start : Date) (vs : ViewState) :
    fetchMeetings { token := none, response := resp } st filters start vs =
      { vs with loading := true } :=
  rfl

/-- Claim C9: for a meeting lasting a whole number of minutes, `formatDuration`
renders at least an hour as the floored whole hour count followed by `h`
(discarding remainder minutes: 90 minutes renders as `1h`), and under an hour
as the exact minute count followed by `m`. -/
theorem format_duration_spec (startTimeMs : Int) (mins : Nat) :
    (60 ≤ mins →
      formatDuration startTimeMs (startTimeMs + (mins : Int) * 60000) =
        toString (mins / 60) ++ "h") ∧
    (mins < 60 →
      formatDuration startTimeMs (startTimeMs + (mins : Int) * 60000) =
        toString mins ++ "m") ∧
    formatDuration 0 (0 + ((90 : Nat) : Int) * 60000) = "1h" := by
  have hhours : ∀ (s : Int) (m : Nat), 60 ≤ m →
      formatDuration s (s + (m : Int) * 60000) = toString (m / 60) ++ "h" := by
    intro s m h
    have hdm : (((s + (m : Int) * 60000 : Int) : ℚ) - (s : ℚ)) / (1000 * 60) = (m : ℚ) := by
      push_cast
      ring
    have h60 : (60 : ℚ) ≤ (m : ℚ) := by exact_mod_cast h
    have hfloor : ⌊((m : ℚ)) / 60⌋ = ((m / 60 : Nat) : Int) := by
      have h1 : ⌊(((m : Nat) : ℚ)) / (((60 : Nat)) : ℚ)⌋ = ((m / 60 : Nat) : Int) := by
        rw [Rat.floor_natCast_div_natCast]
        exact (Int.ofNat_div m 60).symm
      simpa using h1
    simp only [formatDuration, hdm, if_pos h60, hfloor, toString_int_ofNat]
  refine ⟨hhours startTimeMs mins, ?_, ?_⟩
  · intro h
    have hdm : (((startTimeMs + (mins : Int) * 60000 : Int) : ℚ) - (startTimeMs : ℚ)) /
        (1000 * 60) = (mins : ℚ) := by
      push_cast
      ring
    have h60 : ¬ (60 : ℚ) ≤ (mins : ℚ) := by
      rw [not_le]
      exact_mod_cast h
    simp only [formatDuration, hdm, if_neg h60, jsNumToString, Rat.den_natCast,
      Rat.num_natCast, toString_int_ofNat, eq_self_iff_true, if_true]
  · have h := hhours 0 90 (by decide)
    rw [h]
    decide

/-- Claim C9, witness: a 90-minute meeting renders as `1h` and a 30-minute
meeting renders as `30m`. -/
theorem format_duration_spec_witness :
    formatDuration 0 (0 + (90 : Int) * 60000) = toString ((90 : Nat) / 60) ++ "h" ∧
    formatDuration 0 (0 + (30 : Int) * 60000) = toString (30 : Nat) ++ "m" :=
  ⟨(format_duration_spec 0 90).1 (by decide), (format_duration_spec 0 30).2.1 (by decide)⟩

/-- Claim C10: `moveToTop` and `moveToBottom` preserve length and the id
multiset when the index is in range; for an out-of-range index they insert
an `undefined` element at the front (respectively back), yielding length
N + 1. -/
theorem move_to_top_bottom_range (l : List (Option Meeting)) (i : Nat) :
    (i < l.length →
      (moveToTop l i).length = l.length ∧
      ((moveToTop l i).map (Option.map Meeting.id)).Perm (l.map (Option.map Meeting.id)) ∧
      (moveToBottom l i).length = l.length ∧
      ((moveToBottom l i).map (Option.map Meeting.id)).Perm (l.map (Option.map Meeting.id))) ∧
    (l.length ≤ i →
      moveToTop l i = none :: l ∧ moveToBottom l i = l ++ [none]) := by
  constructor
  · intro h
    have htop : (moveToTop l i).Perm l := by
      rw [moveToTop, filterOutIndex_eq_eraseIdx, jsIdx_of_lt h]
      exact perm_get_cons_eraseIdx l i h
    have hbot : (moveToBottom l i).Perm l := by
      rw [moveToBottom, filterOutIndex_eq_eraseIdx, jsIdx_of_lt h]
      exact (List.perm_append_singleton _ _).trans (perm_get_cons_eraseIdx l i h)
    exact ⟨htop.length_eq, htop.map _, hbot.length_eq, hbot.map _⟩
  · intro h
    rw [moveToTop, moveToBottom, filterOutIndex_eq_eraseIdx, jsIdx_of_le h,
      List.eraseIdx_of_length_le h]
    exact ⟨rfl, rfl⟩

/-- Claim C10, witness: on the singleton list holding meeting `A`, index 0 is
in range and preserves the length, while index 3 is out of range and prepends
an `undefined` element. -/
theorem move_to_top_bottom_range_witness :
    (moveToTop [some (mkMeeting "A")] 0).length = 1 ∧
    moveToTop [some (mkMeeting "A")] 3 = none :: [some (mkMeeting "A")] :=
  ⟨((move_to_top_bottom_range [some (mkMeeting "A")] 0).1 (by decide)).1,
   ((move_to_top_bottom_range [some (mkMeeting "A")] 3).2 (by decide)).1⟩

/-- Claim C6: `moveRow` with valid indices removes the element at `dragIndex`
and reinserts it at `hoverIndex`, preserving the id multiset and the length. -/
theorem move_row_preserves (l : List (Option Meeting)) (dragIndex hoverIndex : Nat)
    (hfrom : dragIndex < l.length) (hto : hoverIndex < l.length) :
    ((moveRow l dragIndex hoverIndex).map (Option.map Meeting.id)).Perm
      (l.map (Option.map Meeting.id)) ∧
    (moveRow l dragIndex hoverIndex).length = l.length := by
  have hperm : (moveRow l dragIndex hoverIndex).Perm l := by
    rw [moveRow, ← List.eraseIdx_eq_take_drop_succ, jsIdx_of_lt hfrom]
    exact (perm_insert_take_drop _ _ _).trans (perm_get_cons_eraseIdx l dragIndex hfrom)
  exact ⟨hperm.map _, hperm.length_eq⟩

/-- Claim C6, witness: moving row 0 to position 1 in a two-element list
preserves the id multiset and the length. -/
theorem move_row_preserves_witness :
    ((moveRow [some (mkMeeting "A"), some (mkMeeting "B")] 0 1).map
      (Option.map Meeting.id)).Perm
        ([some (mkMeeting "A"), some (mkMeeting "B")].map (Option.map Meeting.id)) ∧
    (moveRow [some (mkMeeting "A"), some (mkMeeting "B")] 0 1).length = 2 :=
  move_row_preserves [some (mkMeeting "A"), some (mkMeeting "B")] 0 1 (by decide) (by decide)

/-- Claim C5: `moveToTop` at index 2 of the displayed list `[A, B, C]` yields
`[C, A, B]`, and the rank map persisted immediately afterwards for the current
bucket key maps `C` to 0, `A` to 1 and `B` to 2. -/
theorem move_to_top_scenario (st : LocalStorage) (d : Date) :
    moveToTop [some (mkMeeting "A"), some (mkMeeting "B"), some (mkMeeting "C")] 2 =
      [some (mkMeeting "C"), some (mkMeeting "A"), some (mkMeeting "B")] ∧
    getMeetingOrder
        (storeMeetingOrder st
          (moveToTop [some (mkMeeting "A"), some (mkMeeting "B"), some (mkMeeting "C")] 2) d)
        d =
      [("C", 0), ("A", 1), ("B", 2)] := by
  have hmove : moveToTop [some (mkMeeting "A"), some (mkMeeting "B"), some (mkMeeting "C")] 2 =
      [some (mkMeeting "C"), some (mkMeeting "A"), some (mkMeeting "B")] := by
    decide
  refine ⟨hmove, ?_⟩
  rw [hmove]
  have hentries : orderEntries
      [some (mkMeeting "C"), some (mkMeeting "A"), some (mkMeeting "B")] =
      some [("C", 0), ("A", 1), ("B", 2)] := by
    decide
  rw [storeMeetingOrder, hentries]
  simp [getMeetingOrder, setStorage]

/-- Claim C2, counterexample: a response-status mutation that fails remotely
at the network level (the PATCH request throws) does not restore the
pre-mutation status: no fallback refetch runs (the `try`/`catch` wrapped only
the synchronous part, and the rejection inside the async token callback is
unhandled), so the optimistic change persists. Meeting `A` was `accepted`
before the mutation, and after the failed decline it displays `declined`. -/
theorem update_failure_keeps_optimistic_cex :
    statusOf initialMeetingsA "A" = some ResponseStatus.accepted ∧
    statusOf (updateMeetingResponse updateFailEnv emptyStorage defaultFilters mondayDate
        "A" ResponseStatus.declined
        { meetings := initialMeetingsA, loading := false, updating := false,
          consoleErrors := 0 }).meetings "A" = some ResponseStatus.declined ∧
    ¬ statusOf (updateMeetingResponse updateFailEnv emptyStorage defaultFilters mondayDate
        "A" ResponseStatus.declined
        { meetings := initialMeetingsA, loading := false, updating := false,
          consoleErrors := 0 }).meetings "A" = some ResponseStatus.accepted := by
  decide

/-- Claim C2, amended: when the PATCH request completes without throwing
(even if the server rejected the change), the unconditional quiet refetch
replaces the list with the authoritative server projection, so if that
projection still carries the pre-mutation response status for the affected
meeting, the displayed status is restored; when the PATCH request itself
throws, no refetch occurs and the optimistic change persists. -/
theorem update_refetch_restores_status (env : UpdateEnv) (st : LocalStorage) (filters : Filters)
    (start : Date) (meetingId : String) (response oldStatus : ResponseStatus) (vs : ViewState)
    (t : String) (authoritative : List Meeting)
    (htok : env.token = some t)
    (hget : env.getEventThrows = false)
    (hpatch : env.patchThrows = false)
    (hq : fetchMeetingsQuietly env.refetch st filters start = some authoritative)
    (hstat : statusOf (authoritative.map some) meetingId = some oldStatus) :
    statusOf (updateMeetingResponse env st filters start meetingId response vs).meetings
      meetingId = some oldStatus := by
  simp only [updateMeetingResponse, htok, hget, hpatch, hq, Bool.false_eq_true, if_false]
  exact hstat

/-- Claim C2, amended claim witness: with a resolving PATCH whose quiet
refetch returns meeting `A` still `accepted`, a failed decline of `A` ends
with `A` displayed as `accepted` again. -/
theorem update_refetch_restores_status_witness :
    statusOf (updateMeetingResponse updateRejectedEnv emptyStorage defaultFilters mondayDate
        "A" ResponseStatus.declined
        { meetings := initialMeetingsA, loading := false, updating := false,
          consoleErrors := 0 }).meetings "A" = some ResponseStatus.accepted :=
  update_refetch_restores_status updateRejectedEnv emptyStorage defaultFilters mondayDate "A"
    ResponseStatus.declined ResponseStatus.accepted
    { meetings := initialMeetingsA, loading := false, updating := false, consoleErrors := 0 }
    "tok"
    (filteredMeetings emptyStorage (getMeetingOrder emptyStorage mondayDate) defaultFilters
      [mkRemoteItem "A"])
    rfl rfl rfl rfl (by decide)

/-- Claim C7: on saving notes for a selected meeting, the item note is always
persisted; the series note is persisted exactly when the meeting has a
(truthy) recurring-series id; and the series-note step updates `seriesNotes`
of every currently loaded meeting sharing the series id while returning every
other meeting unchanged. -/
theorem note_save_persistence (meeting : Meeting) (noteDraft seriesNoteDraft : String)
    (st : LocalStorage) (meetings : List (Option Meeting)) :
    (handleSave meeting noteDraft seriesNoteDraft st meetings).1 (getNoteStorageKey meeting.id)
        = some (StorageValue.note noteDraft) ∧
    (∀ rid : String, meeting.recurringEventId = some rid → rid ≠ "" →
      (handleSave meeting noteDraft seriesNoteDraft st meetings).1 (getSeriesNoteStorageKey rid)
        = some (StorageValue.note seriesNoteDraft)) ∧
    (jsTruthyStr meeting.recurringEventId = false →
      ∀ rid : String,
        (handleSave meeting noteDraft seriesNoteDraft st meetings).1
            (getSeriesNoteStorageKey rid) = st (getSeriesNoteStorageKey rid)) ∧
    (∀ (sel : Meeting) (note : String) (st0 : LocalStorage) (ms : List (Option Meeting))
        (i : Nat) (m : Meeting),
      jsTruthyStr sel.recurringEventId = true →
      ms.get? i = some (some m) →
      (handleNoteSave (some sel) note true st0 ms).2.get? i =
        some (some (if m.recurringEventId = sel.recurringEventId then
          { m with seriesNotes := some note } else m))) := by
  have hr1 : handleNoteSave (some meeting) noteDraft false st meetings =
      (storeNote st meeting.id noteDraft,
       meetings.map (Option.map (fun m : Meeting =>
         if m.id = meeting.id then { m with notes := some noteDraft } else m))) := by
    simp [handleNoteSave]
  have hstep : ∀ (sel : Meeting) (note : String) (st0 : LocalStorage)
      (ms : List (Option Meeting)), jsTruthyStr sel.recurringEventId = true →
      handleNoteSave (some sel) note true st0 ms =
        (storeSeriesNote st0 (sel.recurringEventId.getD "") note,
         ms.map (Option.map (fun m : Meeting =>
           if m.recurringEventId = sel.recurringEventId then
             { m with seriesNotes := some note }
           else m))) := by
    intro sel note st0 ms hT
    simp [handleNoteSave, hT]
  have hkey : ∀ a b : String, getNoteStorageKey a ≠ getSeriesNoteStorageKey b :=
    fun a b h => seriesKey_ne_noteKey b a h.symm
  refine ⟨?_, ?_, ?_, ?_⟩
  · cases hT : jsTruthyStr meeting.recurringEventId with
    | false =>
      simp [handleSave, hT, hr1, storeNote, setStorage]
    | true =>
      simp [handleSave, hT, hr1, hstep meeting seriesNoteDraft _ _ hT,
        storeSeriesNote, storeNote, setStorage, hkey]
  · intro rid hrid hne
    have hT2 : jsTruthyStr (some rid) = true := by
      simpa [jsTruthyStr] using hne
    have hT : jsTruthyStr meeting.recurringEventId = true := by
      rw [hrid]
      exact hT2
    simp [handleSave, hT, hT2, hr1, hstep meeting seriesNoteDraft _ _ hT,
      storeSeriesNote, setStorage, hrid]
  · intro hF rid
    simp [handleSave, hF, hr1, storeNote, setStorage, seriesKey_ne_noteKey]
  · intro sel note st0 ms i m hT hmi
    rw [hstep sel note st0 ms hT]
    simp only [List.get?_map, hmi, Option.map_some']

/-- Claim C7, witness: saving drafts against the series-`S1` occurrence `A`
while `A`, the sibling occurrence `B` and the non-recurring `C` are loaded
persists the item note and the series note, and the series step updates both
`S1` occurrences and leaves `C` unchanged; a save against the non-recurring
`C` leaves series storage untouched. -/
theorem note_save_persistence_witness :
    (handleSave recMeetingA "n1" "s1note" emptyStorage
        [some recMeetingA, some recMeetingB, some (mkMeeting "C")]).1
        (getNoteStorageKey "A") = some (StorageValue.note "n1") ∧
    (handleSave recMeetingA "n1" "s1note" emptyStorage
        [some recMeetingA, some recMeetingB, some (mkMeeting "C")]).1
        (getSeriesNoteStorageKey "S1") = some (StorageValue.note "s1note") ∧
    (handleSave (mkMeeting "C") "n2" "unused" emptyStorage [some (mkMeeting "C")]).1
        (getSeriesNoteStorageKey "S1") = emptyStorage (getSeriesNoteStorageKey "S1") ∧
    (handleNoteSave (some recMeetingA) "s1note" true emptyStorage
        [some recMeetingB, some (mkMeeting "C")]).2.get? 1 =
      some (some (mkMeeting "C")) := by
  refine ⟨(note_save_persistence recMeetingA "n1" "s1note" emptyStorage
      [some recMeetingA, some recMeetingB, some (mkMeeting "C")]).1, ?_, ?_, ?_⟩
  · exact (note_save_persistence recMeetingA "n1" "s1note" emptyStorage
      [some recMeetingA, some recMeetingB, some (mkMeeting "C")]).2.1 "S1" rfl (by decide)
  · exact (note_save_persistence (mkMeeting "C") "n2" "unused" emptyStorage
      [some (mkMeeting "C")]).2.2.1 (by decide) "S1"
  · have h := (note_save_persistence recMeetingA "x" "y" emptyStorage []).2.2.2
      recMeetingA "s1note" emptyStorage [some recMeetingB, some (mkMeeting "C")] 1
      (mkMeeting "C") (by decide) (by decide)
    rw [h]
    decide

theorem mapM_loop_map_some (L : List Meeting) :
    ∀ acc : List Meeting,
      List.mapM.loop (fun m => m) (L.map some) acc = some (acc.reverse ++ L) := by
  induction L with
  | nil => intro acc; simp [List.mapM.loop]
  | cons x xs ih =>
    intro acc
    show List.mapM.loop (fun m => m) (some x :: xs.map some) acc = _
    rw [List.mapM.loop]
    show List.mapM.loop (fun m => m) (xs.map some) (x :: acc) = _
    rw [ih (x :: acc)]
    simp

theorem mapM_map_some (L : List Meeting) : (L.map some).mapM (fun m => m) = some L := by
  show List.mapM.loop (fun m => m) (L.map some) [] = some L
  rw [mapM_loop_map_some L []]
  simp

theorem orderEntries_map_some (L : List Meeting) :
    orderEntries (L.map some) = some (L.enum.map (fun p => (p.2.id, p.1))) := by
  simp only [orderEntries, mapM_map_some, Option.map_some']

theorem store_then_get (st : LocalStorage) (L : List Meeting) (start : Date) :
    getMeetingOrder (storeMeetingOrder st (L.map some) start) start =
      L.enum.map (fun p => (p.2.id, p.1)) := by
  rw [storeMeetingOrder, orderEntries_map_some]
  simp [getMeetingOrder, setStorage]

theorem enumFrom_id_entries (L : List Meeting) :
    ∀ n : Nat, (L.enumFrom n).map (fun p => (p.2.id, p.1)) =
      ((L.map Meeting.id).enumFrom n).map (fun p => (p.2, p.1)) := by
  induction L with
  | nil => intro n; rfl
  | cons x xs ih => intro n; simp [List.enumFrom_cons, ih (n + 1)]

theorem objLookup_enumFrom_ids :
    ∀ (ids : List String), ids.Nodup → ∀ (n : Nat) (k : String),
      objLookup ((ids.enumFrom n).map (fun p => (p.2, p.1))) k =
        if k ∈ ids then some (n + ids.indexOf k) else none := by
  intro ids
  induction ids with
  | nil => intro _ n k; simp [objLookup]
  | cons a as ih =>
    intro hnd n k
    rcases List.nodup_cons.1 hnd with ⟨ha, hasnd⟩
    rw [List.enumFrom_cons, List.map_cons]
    have hunf : objLookup ((a, n) :: (as.enumFrom (n + 1)).map (fun p => (p.2, p.1))) k =
        ((as.enumFrom (n + 1)).map (fun p => (p.2, p.1))).foldl
          (fun acc e => if e.1 = k then some e.2 else acc)
          (if a = k then some n else none) := rfl
    rw [hunf, objLookup_foldl, ih hasnd (n + 1) k]
    by_cases hk : k ∈ as
    · have hka : a ≠ k := fun e => ha (e ▸ hk)
      have hidx : (a :: as).indexOf k = as.indexOf k + 1 := by
        simpa [Nat.succ_eq_add_one] using List.indexOf_cons_ne as hka
      simp only [hk, if_true, List.mem_cons, or_true, hidx]
      congr 1
      omega
    · by_cases hak : a = k
      · subst hak
        have hidx : (a :: as).indexOf a = 0 := List.indexOf_cons_self a as
        simp [hk, hidx]
      · have hnm : ¬ k ∈ a :: as := by
          simp only [List.mem_cons, not_or]
          exact ⟨fun e => hak e.symm, hk⟩
        simp [hk, hnm, hak]

theorem filteredMeetings_map_id_of_indexed (st : LocalStorage) (so : List (String × Nat))
    (filters : Filters) (items : List RemoteItem) (ids : List String)
    (hnd : ids.Nodup)
    (hlookup : ∀ k, k ∈ ids → objLookup so k = some (ids.indexOf k))
    (hperm : ((declinedFiltered st so filters items).map Meeting.id).Perm ids) :
    (filteredMeetings st so filters items).map Meeting.id = ids := by
  haveI : IsTotal Meeting byOrder := ⟨fun a b => Nat.le_total a.order b.order⟩
  haveI : IsTrans Meeting byOrder := ⟨fun a b c h1 h2 => Nat.le_trans h1 h2⟩
  have hSperm : (List.insertionSort byOrder (declinedFiltered st so filters items)).Perm
      (declinedFiltered st so filters items) :=
    List.perm_insertionSort byOrder _
  have hsorted : (List.insertionSort byOrder (declinedFiltered st so filters items)).Sorted
      byOrder := List.sorted_insertionSort byOrder _
  have hordF : ∀ m ∈ declinedFiltered st so filters items,
      m.id ∈ ids ∧ m.order = ids.indexOf m.id := by
    intro m hm
    have hmem : m.id ∈ ids := hperm.subset (List.mem_map_of_mem Meeting.id hm)
    refine ⟨hmem, ?_⟩
    have hm' : m ∈ (filterMeetings filters.showFree filters.showSingleAttendee items).map
        (toMeeting st so) := List.mem_of_mem_filter hm
    rcases List.mem_map.1 hm' with ⟨item, _hitem, hrfl⟩
    have hid : item.id = m.id := by
      rw [← hrfl]
      rfl
    have horder : m.order = (objLookup so item.id).getD maxSafeInteger := by
      rw [← hrfl]
      rfl
    rw [horder, hid, hlookup m.id hmem]
    rfl
  have hordS : ∀ m ∈ List.insertionSort byOrder (declinedFiltered st so filters items),
      m.id ∈ ids ∧ m.order = ids.indexOf m.id :=
    fun m hm => hordF m (hSperm.mem_iff.1 hm)
  have hidsS : ((List.insertionSort byOrder
      (declinedFiltered st so filters items)).map Meeting.id).Perm ids :=
    (hSperm.map Meeting.id).trans hperm
  have hSidnd : ((List.insertionSort byOrder
      (declinedFiltered st so filters items)).map Meeting.id).Nodup :=
    (hidsS.nodup_iff).2 hnd
  have hidne : (List.insertionSort byOrder
      (declinedFiltered st so filters items)).Pairwise (fun a b => a.id ≠ b.id) :=
    (List.pairwise_map).1 hSidnd
  have hlt : (List.insertionSort byOrder (declinedFiltered st so filters items)).Pairwise
      (fun a b => a.order < b.order) := by
    refine (hsorted.and hidne).imp_of_mem ?_
    intro a b ha hb hab
    rcases hordS a ha with ⟨hamem, haord⟩
    rcases hordS b hb with ⟨hbmem, hbord⟩
    rcases hab with ⟨hle, hne⟩
    rcases Nat.lt_or_ge a.order b.order with h | h
    · exact h
    · exfalso
      have heq : a.order = b.order := Nat.le_antisymm hle h
      rw [haord, hbord] at heq
      exact hne ((List.indexOf_inj hamem hbmem).1 heq)
  have hPsorted : ((List.insertionSort byOrder
      (declinedFiltered st so filters items)).map
        (fun m => (m.order, m.id))).Pairwise (fun a b : Nat × String => a.1 < b.1) :=
    (List.pairwise_map).2 hlt
  have hPeq : (List.insertionSort byOrder (declinedFiltered st so filters items)).map
      (fun m => (m.order, m.id)) =
      ((List.insertionSort byOrder (declinedFiltered st so filters items)).map
        Meeting.id).map (fun s => (ids.indexOf s, s)) := by
    rw [List.map_map]
    refine List.map_congr_left ?_
    intro m hm
    rcases hordS m hm with ⟨_, hord⟩
    simp only [Function.comp_apply, hord]
  have hQsorted : (ids.map (fun s => (ids.indexOf s, s))).Pairwise
      (fun a b : Nat × String => a.1 < b.1) := by
    rw [List.pairwise_map]
    rw [List.pairwise_iff_getElem]
    intro i j hi hj hij
    rw [List.indexOf_getElem hnd i hi, List.indexOf_getElem hnd j hj]
    exact hij
  have hPQperm : ((List.insertionSort byOrder (declinedFiltered st so filters items)).map
      (fun m => (m.order, m.id))).Perm (ids.map (fun s => (ids.indexOf s, s))) := by
    rw [hPeq]
    exact hidsS.map _
  haveI : IsAntisymm (Nat × String) (fun a b => a.1 < b.1) :=
    ⟨fun a b h1 h2 => absurd (h1.trans h2) (lt_irrefl _)⟩
  have heq : (List.insertionSort byOrder (declinedFiltered st so filters items)).map
      (fun m => (m.order, m.id)) = ids.map (fun s => (ids.indexOf s, s)) :=
    List.eq_of_perm_of_sorted hPQperm hPsorted hQsorted
  have hsnd := congrArg (List.map Prod.snd) heq
  rw [List.map_map, List.map_map] at hsnd
  calc (filteredMeetings st so filters items).map Meeting.id
      = (List.insertionSort byOrder (declinedFiltered st so filters items)).map
          (Prod.snd ∘ fun m => (m.order, m.id)) := rfl
    _ = ids.map (Prod.snd ∘ fun s => (ids.indexOf s, s)) := hsnd
    _ = ids := List.map_id' ids

/-- Claim C1: order round-trip. For a meeting list `L` (with distinct ids) and
bucket start date, after `storeMeetingOrder(L, start)` a refetch with the same
bucket key — which attaches each item's stored rank and stable-sorts ascending
by rank — reconstructs exactly the order of `L`, provided the refetched
(filtered) meetings are exactly `L`'s meetings (in any arrival order) and no
intervening write touched the bucket's order record. -/
theorem order_round_trip (st : LocalStorage) (L : List Meeting) (start : Date)
    (filters : Filters) (items : List RemoteItem)
    (hnd : (L.map Meeting.id).Nodup)
    (hperm : ((declinedFiltered (storeMeetingOrder st (L.map some) start)
        (getMeetingOrder (storeMeetingOrder st (L.map some) start) start) filters items).map
        Meeting.id).Perm (L.map Meeting.id)) :
    (filteredMeetings (storeMeetingOrder st (L.map some) start)
        (getMeetingOrder (storeMeetingOrder st (L.map some) start) start) filters items).map
      Meeting.id = L.map Meeting.id := by
  refine filteredMeetings_map_id_of_indexed _ _ _ _ _ hnd ?_ hperm
  intro k hk
  rw [store_then_get st L start]
  have hentries : L.enum.map (fun p => (p.2.id, p.1)) =
      ((L.map Meeting.id).enumFrom 0).map (fun p => (p.2, p.1)) := enumFrom_id_entries L 0
  rw [hentries, objLookup_enumFrom_ids (L.map Meeting.id) hnd 0 k, if_pos hk, Nat.zero_add]

/-- Claim C1, witness: storing the order of `[A, B]` and refetching the same
bucket with arrival order `[B, A]` reconstructs the display order `[A, B]`. -/
theorem order_round_trip_witness :
    (filteredMeetings
        (storeMeetingOrder emptyStorage ([mkMeeting "A", mkMeeting "B"].map some) mondayDate)
        (getMeetingOrder
          (storeMeetingOrder emptyStorage ([mkMeeting "A", mkMeeting "B"].map some) mondayDate)
          mondayDate)
        defaultFilters [mkRemoteItem "B", mkRemoteItem "A"]).map Meeting.id =
      [mkMeeting "A", mkMeeting "B"].map Meeting.id :=
  order_round_trip emptyStorage [mkMeeting "A", mkMeeting "B"] mondayDate defaultFilters
    [mkRemoteItem "B", mkRemoteItem "A"] (by decide) (by decide)

/-- Claim C4: a fetched meeting whose id is absent from the stored order map
receives the sentinel rank `Number.MAX_SAFE_INTEGER`; every explicit rank
written by `storeMeetingOrder` is below the stored list's length (hence below
the sentinel for any list of at most `MAX_SAFE_INTEGER` items); and in the
scenario `[A(rank 0), B(rank 1), C(unranked)]` plus a new unranked `D`
arriving after `C`, the merged display order is `[A, B, C, D]` (the sentinel
tie between `C` and `D` is broken by arrival order, by sort stability). -/
theorem merge_sentinel_order :
    (∀ (st : LocalStorage) (storedOrder : List (String × Nat)) (item : RemoteItem),
      objLookup storedOrder item.id = none →
      (toMeeting st storedOrder item).order = maxSafeInteger) ∧
    (∀ (ms : List (Option Meeting)) (m : List (String × Nat)) (k : String) (r : Nat),
      orderEntries ms = some m → objLookup m k = some r → ms.length ≤ maxSafeInteger →
      r < maxSafeInteger) ∧
    (filteredMeetings emptyStorage scenarioOrder defaultFilters
        [mkRemoteItem "A", mkRemoteItem "B", mkRemoteItem "C", mkRemoteItem "D"]).map
      Meeting.id = ["A", "B", "C", "D"] := by
  refine ⟨?_, ?_, ?_⟩
  · intro st storedOrder item h
    simp [toMeeting, h]
  · intro ms m k r he hl hle
    exact lt_of_lt_of_le (orderEntries_rank_lt he hl) hle
  · decide

/-- Claim C4, witness: the unranked item `C` receives the sentinel under the
scenario order map, and the explicit rank 2 that a three-element store writes
is below the sentinel. -/
theorem merge_sentinel_order_witness :
    (toMeeting emptyStorage scenarioOrder (mkRemoteItem "C")).order = maxSafeInteger ∧
    (2 : Nat) < maxSafeInteger :=
  ⟨merge_sentinel_order.1 emptyStorage scenarioOrder (mkRemoteItem "C") (by decide),
   merge_sentinel_order.2.1
     [some (mkMeeting "A"), some (mkMeeting "B"), some (mkMeeting "C")]
     [("A", 0), ("B", 1), ("C", 2)] "C" 2 (by decide) (by decide) (by decide)⟩
